import Mathlib

/-!
Shallow embedding of the manhwa-cli pipeline (scraper, PDF renderer,
temp-directory lifecycle, interactive viewer) and proofs about it.

Network and filesystem effects are modelled as explicit parameters:
a fetch function mapping an image URL to `some payload` on success and
`none` on failure, parsed documents as structures holding the outcomes
of the CSS-selector queries the scraper runs, and the filesystem as the
list of currently existing temp directories.
-/

namespace ManhwaCli

/-- Python's `a or b` on strings: the empty string is falsy. -/
def pyOr (a b : String) : String := if a = "" then b else a

/-- Bool-valued infix test on lists (substring test on the char lists). -/
def listIsInfixOf [BEq α] : List α → List α → Bool
  | pat, [] => pat.isEmpty
  | pat, a :: as => pat.isPrefixOf (a :: as) || listIsInfixOf pat as

/-- Substring test `pat in s`, as Python's `in` on strings. -/
def containsStr (s pat : String) : Bool := listIsInfixOf pat.toList s.toList

/-- Python's `s.lower()`, per character (char-list form). -/
def strToLower (s : String) : List Char := s.toList.map Char.toLower

/-- Substring test `pat in s.lower()`. -/
def containsLower (s pat : String) : Bool := listIsInfixOf pat.toList (strToLower s)

/-! ## scraper.download_chapter_images -/

/-- An `<img>` element: the three source attributes the scraper inspects
(missing attribute = empty string, as `img.get(attr, '')` yields). -/
structure ImgTag where
  src : String
  data_src : String
  data_lazy_src : String
deriving DecidableEq

/-- Attribute preference `img_url = data_src or data_lazy_src or src` (scraper.py:435,452). -/
def best_img_url (img : ImgTag) : String :=
  pyOr img.data_src (pyOr img.data_lazy_src img.src)

/-- A fetched chapter page: `reader_imgs` is `some imgs` when
`#reader-content` / `.reading-content` is present (its `<img>` children),
`all_imgs` is every `<img>` of the page (used by the fallback). -/
structure ChapterPage where
  reader_imgs : Option (List ImgTag)
  all_imgs : List ImgTag

/-- Fallback filter: URL must contain a content-indicating token
(scraper.py:438). -/
def is_content_url (u : String) : Bool :=
  containsStr u "chapter" || containsStr u "manga" || containsStr u "comic"

/-- Image-URL extraction from a chapter page (scraper.py:421-455). -/
def extract_image_urls (p : ChapterPage) : List String :=
  match p.reader_imgs with
  | some imgs => (imgs.map best_img_url).filter (fun u => u ≠ "")
  | none =>
      (p.all_imgs.map best_img_url).filter (fun u => u ≠ "" && is_content_url u)

/-- The per-image download loop (scraper.py:462-477): each URL is fetched
in its own try/except, a failed fetch is skipped, successes are appended
in order. -/
def download_loop (fetch : String → Option β) : List String → List β
  | [] => []
  | u :: rest =>
      match fetch u with
      | some payload => payload :: download_loop fetch rest
      | none => download_loop fetch rest

/-- Model of `download_chapter_images` (scraper.py:397-490): `page = none` models the
chapter-page fetch itself raising (caught at scraper.py:486, returns None);
otherwise the extracted URLs are downloaded one by one and the call returns
None iff the collected list is empty (scraper.py:479-484). -/
def download_chapter_images (page : Option ChapterPage) (fetch : String → Option β) :
    Option (List β) :=
  match page with
  | none => none
  | some p =>
      let images := download_loop fetch (extract_image_urls p)
      if images.isEmpty then none else some images

theorem download_loop_eq_filterMap (fetch : String → Option β) (urls : List String) :
    download_loop fetch urls = urls.filterMap fetch := by
  induction urls with
  | nil => rfl
  | cons u rest ih =>
      simp only [download_loop, List.filterMap_cons]
      cases fetch u <;> simp [ih]

/-- C1: with at least one extracted image URL, each image is fetched
independently (failures skipped, never aborting the batch), the result is
None iff every fetch failed, and on success it is exactly the successful
payloads in their original relative order. -/
theorem download_chapter_images_isolation (p : ChapterPage) (fetch : String → Option β)
    (h : extract_image_urls p ≠ []) :
    (download_chapter_images (some p) fetch = none ↔
        ∀ u ∈ extract_image_urls p, fetch u = none) ∧
    ((extract_image_urls p).filterMap fetch ≠ [] →
        download_chapter_images (some p) fetch =
          some ((extract_image_urls p).filterMap fetch)) := by
  simp only [download_chapter_images, download_loop_eq_filterMap]
  constructor
  · constructor
    · intro hnone
      by_cases hemp : ((extract_image_urls p).filterMap fetch).isEmpty
      · rw [List.isEmpty_iff] at hemp
        exact List.filterMap_eq_nil_iff.mp hemp
      · simp [hemp] at hnone
    · intro hall
      have : (extract_image_urls p).filterMap fetch = [] := List.filterMap_eq_nil_iff.mpr hall
      simp [this]
  · intro hne
    have : ¬ ((extract_image_urls p).filterMap fetch).isEmpty := by
      simpa [List.isEmpty_iff] using hne
    simp [this]

/-- Concrete chapter page for the C1 witness: seven images, URLs a..g. -/
def dlPage : ChapterPage :=
  ⟨some [⟨"a", "", ""⟩, ⟨"b", "", ""⟩, ⟨"c", "", ""⟩, ⟨"d", "", ""⟩,
         ⟨"e", "", ""⟩, ⟨"f", "", ""⟩, ⟨"g", "", ""⟩], []⟩

/-- Concrete fetch for the C1 witness: URLs b and f are unreachable. -/
def dlFetch : String → Option String :=
  fun u => if u = "b" || u = "f" then none else some u

theorem download_chapter_images_isolation_witness :
    download_chapter_images (some dlPage) dlFetch = some ["a", "c", "d", "e", "g"] := by
  have h := (download_chapter_images_isolation dlPage dlFetch (by decide)).2 (by decide)
  rw [h]
  rfl

/-! ## scraper.get_chapters -/

/-- An `<a>` element: `href` is `none` when the attribute is absent
(`link['href']` then raises KeyError), `text` is the link text. -/
structure Link where
  href : Option String
  text : String
deriving DecidableEq

/-- A chapter list item as matched by one of the structural selectors:
its first `<a>` child (if any) and the text of the first matching date
selector (if any). -/
structure ChapterItem where
  link : Option Link
  date : Option String
deriving DecidableEq

/-- A chapter record (scraper.py:304-309, 334-339). -/
structure Chapter where
  index : Nat
  title : String
  url : String
  release_date : String
deriving DecidableEq

/-- The manhwa page: per-selector results of the five chapter selectors,
in order, and every `<a>` of the document (for the fallback). -/
structure ManhwaDoc where
  selector_results : List (List ChapterItem)
  all_links : List Link

/-- First selector whose result list is non-empty (scraper.py:278-283). -/
def firstNonEmpty : List (List α) → List α
  | [] => []
  | l :: ls => if l.isEmpty then firstNonEmpty ls else l

/-- Fallback filter: href or link text contains a chapter-indicating token
(scraper.py:294-295); `link.get('href', '')` makes a missing href falsy. -/
def is_chapter_link (l : Link) : Bool :=
  containsLower (l.href.getD "") "chapter" ||
  containsLower (l.href.getD "") "chap-" ||
  containsLower l.text "chapter" ||
  containsLower l.text "chap"

/-- Main loop over (already reversed) chapter items (scraper.py:313-339):
items without an `<a>` are skipped but still advance the enumeration
counter; an `<a>` without href raises KeyError (modelled as `none`),
which the outer except turns into an empty chapter list. -/
def chapters_loop (idx : Nat) : List ChapterItem → Option (List Chapter)
  | [] => some []
  | it :: rest =>
      match it.link with
      | none => chapters_loop (idx + 1) rest
      | some l =>
          match l.href with
          | none => none
          | some u =>
              (chapters_loop (idx + 1) rest).map
                (fun cs => ⟨idx + 1, l.text.trim, u, it.date.getD "N/A"⟩ :: cs)

/-- Hyperlink-fallback loop (scraper.py:301-309): DOM order, no reversal;
`link['href']` on a missing href raises (modelled as `none`). -/
def fallback_loop (idx : Nat) : List Link → Option (List Chapter)
  | [] => some []
  | l :: rest =>
      match l.href with
      | none => none
      | some u =>
          (fallback_loop (idx + 1) rest).map
            (fun cs => ⟨idx + 1, l.text.trim, u, "N/A"⟩ :: cs)

/-- Model of `get_chapters` (scraper.py:249-346). `fetch = none` models a network
exception or an error status from raise_for_status; any exception inside
(KeyError on a missing href) is caught by the same outer except and the
function returns `[]`. -/
def get_chapters (fetch : Option ManhwaDoc) : List Chapter :=
  match fetch with
  | none => []
  | some doc =>
      let chapter_items := firstNonEmpty doc.selector_results
      if chapter_items.isEmpty then
        let chapter_links := doc.all_links.filter is_chapter_link
        if chapter_links.isEmpty then
          (chapters_loop 0 chapter_items.reverse).getD []
        else
          (fallback_loop 0 chapter_links).getD []
      else
        (chapters_loop 0 chapter_items.reverse).getD []

theorem chapters_loop_spec (items : List ChapterItem) : ∀ idx : Nat,
    (∀ it ∈ items, (it.link.bind Link.href).isSome) →
    ∃ cs, chapters_loop idx items = some cs ∧
      cs.map Chapter.index = List.range' (idx + 1) items.length ∧
      cs.map Chapter.url = items.filterMap (fun it => it.link.bind Link.href) := by
  induction items with
  | nil => intro idx _; exact ⟨[], rfl, rfl, rfl⟩
  | cons it rest ih =>
      intro idx hall
      have hhead := hall it (List.mem_cons_self it rest)
      have htail : ∀ x ∈ rest, (x.link.bind Link.href).isSome :=
        fun x hx => hall x (List.mem_cons_of_mem it hx)
      obtain ⟨cs, hcs, hidx, hurl⟩ := ih (idx + 1) htail
      match hl : it.link with
      | none => simp [hl] at hhead
      | some l =>
          match hu : l.href with
          | none => simp [hl, hu] at hhead
          | some u =>
              refine ⟨⟨idx + 1, l.text.trim, u, it.date.getD "N/A"⟩ :: cs, ?_, ?_, ?_⟩
              · simp [chapters_loop, hl, hu, hcs]
              · simp [hidx, List.length_cons, List.range'_succ]
              · simp [hurl, List.filterMap_cons, hl, hu]

theorem fallback_loop_spec (links : List Link) : ∀ idx : Nat,
    (∀ l ∈ links, l.href.isSome) →
    ∃ cs, fallback_loop idx links = some cs ∧
      cs.map Chapter.index = List.range' (idx + 1) links.length ∧
      cs.map Chapter.url = links.filterMap Link.href := by
  induction links with
  | nil => intro idx _; exact ⟨[], rfl, rfl, rfl⟩
  | cons l rest ih =>
      intro idx hall
      have hhead := hall l (List.mem_cons_self l rest)
      have htail : ∀ x ∈ rest, x.href.isSome :=
        fun x hx => hall x (List.mem_cons_of_mem l hx)
      obtain ⟨cs, hcs, hidx, hurl⟩ := ih (idx + 1) htail
      match hu : l.href with
      | none => simp [hu] at hhead
      | some u =>
          refine ⟨⟨idx + 1, l.text.trim, u, "N/A"⟩ :: cs, ?_, ?_, ?_⟩
          · simp [fallback_loop, hu, hcs]
          · simp [hidx, List.length_cons, List.range'_succ]
          · simp [hurl, List.filterMap_cons, hu]

/-- C2: when a structural selector matches N items (each carrying a link
with an href), the records get ordinal indices 1..N and their URLs are the
DOM URLs reversed (oldest first); on the hyperlink-fallback path the
records keep DOM order, not reversed. -/
theorem get_chapters_ordering (doc : ManhwaDoc) :
    (firstNonEmpty doc.selector_results ≠ [] →
      (∀ it ∈ firstNonEmpty doc.selector_results, (it.link.bind Link.href).isSome) →
      (get_chapters (some doc)).map Chapter.index =
        List.range' 1 (firstNonEmpty doc.selector_results).length ∧
      (get_chapters (some doc)).map Chapter.url =
        (firstNonEmpty doc.selector_results).reverse.filterMap
          (fun it => it.link.bind Link.href)) ∧
    (firstNonEmpty doc.selector_results = [] →
      (∀ l ∈ doc.all_links.filter is_chapter_link, l.href.isSome) →
      (get_chapters (some doc)).map Chapter.index =
        List.range' 1 (doc.all_links.filter is_chapter_link).length ∧
      (get_chapters (some doc)).map Chapter.url =
        (doc.all_links.filter is_chapter_link).filterMap Link.href) := by
  constructor
  · intro hne hall
    have hrev : ∀ it ∈ (firstNonEmpty doc.selector_results).reverse,
        (it.link.bind Link.href).isSome := by
      intro it hit
      exact hall it (List.mem_reverse.mp hit)
    obtain ⟨cs, hcs, hidx, hurl⟩ :=
      chapters_loop_spec (firstNonEmpty doc.selector_results).reverse 0 hrev
    have hempty : (firstNonEmpty doc.selector_results).isEmpty = false := by
      cases h : firstNonEmpty doc.selector_results with
      | nil => exact absurd h hne
      | cons a as => simp [h]
    simp only [get_chapters, hempty, Bool.false_eq_true, if_false, hcs, Option.getD_some]
    rw [hidx, hurl]
    simp
  · intro hemp hall
    have hempty : (firstNonEmpty doc.selector_results).isEmpty = true := by
      simp [hemp]
    by_cases hlinks : (doc.all_links.filter is_chapter_link).isEmpty
    · rw [List.isEmpty_iff] at hlinks
      simp [get_chapters, hempty, hemp, hlinks, chapters_loop]
    · obtain ⟨cs, hcs, hidx, hurl⟩ :=
        fallback_loop_spec (doc.all_links.filter is_chapter_link) 0 hall
      simp only [get_chapters, hempty, if_true, hlinks, Bool.false_eq_true, if_false,
        hcs, Option.getD_some]
      exact ⟨hidx, hurl⟩

/-- C2 witness, primary path: one selector matches three items, DOM
newest-first with URLs u1, u2, u3. -/
def chapDocA : ManhwaDoc :=
  ⟨[[⟨some ⟨some "u1", "t1"⟩, none⟩, ⟨some ⟨some "u2", "t2"⟩, none⟩,
     ⟨some ⟨some "u3", "t3"⟩, none⟩]], []⟩

/-- C2 witness, fallback path: no selector matches, two links whose hrefs
contain the token chapter. -/
def chapDocB : ManhwaDoc :=
  ⟨[], [⟨some "x/chapter-1", "one"⟩, ⟨some "x/chapter-2", "two"⟩]⟩

theorem get_chapters_ordering_witness :
    (get_chapters (some chapDocA)).map Chapter.index = [1, 2, 3] ∧
    (get_chapters (some chapDocA)).map Chapter.url = ["u3", "u2", "u1"] ∧
    (get_chapters (some chapDocB)).map Chapter.index = [1, 2] ∧
    (get_chapters (some chapDocB)).map Chapter.url = ["x/chapter-1", "x/chapter-2"] := by
  obtain ⟨hA1, hA2⟩ := (get_chapters_ordering chapDocA).1 (by decide) (by decide)
  obtain ⟨hB1, hB2⟩ := (get_chapters_ordering chapDocB).2 (by decide) (by decide)
  refine ⟨?_, ?_, ?_, ?_⟩
  · rw [hA1]; decide
  · rw [hA2]; decide
  · rw [hB1]; decide
  · rw [hB2]; decide

/-! ## scraper.get_chapter_url -/

/-- A fetched chapter page as `get_chapter_url` parses it:
whether `#reader-content` / `.reading-content` is present, and the
reading-mode link (`a.reading-mode` or an `a` with reader in its href):
`none` when absent, `some none` when present without an href attribute,
`some (some t)` when present with href `t`. -/
structure ChapterPageDoc where
  has_reader_container : Bool
  reader_link : Option (Option String)
deriving DecidableEq

/-- Model of `get_chapter_url` (scraper.py:348-395). `fetch = none` models an
exception (caught, returns the input URL); otherwise the response status
and parsed page. The reading-mode link is consulted only inside the
`if reader_container:` block (scraper.py:374-384); every other path
returns the input URL. -/
def get_chapter_url (fetch : Option (Nat × ChapterPageDoc)) (chapter_url : String) :
    String :=
  match fetch with
  | none => chapter_url
  | some (status, doc) =>
      if status = 200 then
        if doc.has_reader_container then
          match doc.reader_link with
          | some (some href) => href
          | _ => chapter_url
        else chapter_url
      else chapter_url

/-- C3 counterexample: the claim says the reading-mode link target is
returned whenever such a link is present in the fetched page, but the code
only consults the link when a reader content container is also present: on
a 200 page carrying the link but no container, the input URL is returned
instead of the link target. -/
theorem get_chapter_url_claim_false :
    ¬ (∀ (url target : String) (status : Nat) (doc : ChapterPageDoc),
        doc.reader_link = some (some target) → status = 200 →
        get_chapter_url (some (status, doc)) url = target) := by
  intro hclaim
  have h := hclaim "C" "R" 200 ⟨false, some (some "R")⟩ rfl rfl
  simp [get_chapter_url] at h

/-- C3 amended: the link target is returned exactly when the fetch
succeeded with status 200, a reader content container is present, and the
reading-mode link carries an href; in every other case — fetch failure,
non-200 status, missing container, missing link or missing href — the
input URL is returned unchanged. -/
theorem get_chapter_url_amended (fetch : Option (Nat × ChapterPageDoc))
    (url : String) :
    (fetch = none → get_chapter_url fetch url = url) ∧
    (∀ status doc, fetch = some (status, doc) → status ≠ 200 →
        get_chapter_url fetch url = url) ∧
    (∀ status doc, fetch = some (status, doc) → doc.has_reader_container = false →
        get_chapter_url fetch url = url) ∧
    (∀ status doc, fetch = some (status, doc) →
        (∀ t, doc.reader_link ≠ some (some t)) →
        get_chapter_url fetch url = url) ∧
    (∀ doc target, fetch = some (200, doc) → doc.has_reader_container = true →
        doc.reader_link = some (some target) →
        get_chapter_url fetch url = target) := by
  refine ⟨?_, ?_, ?_, ?_, ?_⟩
  · intro hf; rw [hf]; rfl
  · intro status doc hf hs
    rw [hf]; simp [get_chapter_url, hs]
  · intro status doc hf hc
    rw [hf]; simp only [get_chapter_url]
    by_cases hs : status = 200
    · simp [hs, hc]
    · simp [hs]
  · intro status doc hf hlink
    rw [hf]
    by_cases hs : status = 200
    · by_cases hc : doc.has_reader_container
      · match hr : doc.reader_link with
        | none => simp [get_chapter_url, hs, hc, hr]
        | some none => simp [get_chapter_url, hs, hc, hr]
        | some (some t) => exact absurd hr (hlink t)
      · simp [get_chapter_url, hs, hc]
    · simp [get_chapter_url, hs]
  · intro doc target hf hc hr
    rw [hf]; simp [get_chapter_url, hc, hr]

theorem get_chapter_url_amended_witness :
    get_chapter_url (some (200, ⟨true, some (some "R")⟩)) "C" = "R" ∧
    get_chapter_url (some (404, ⟨true, some (some "R")⟩)) "C" = "C" ∧
    get_chapter_url none "C" = "C" := by
  refine ⟨?_, ?_, ?_⟩
  · exact (get_chapter_url_amended (some (200, ⟨true, some (some "R")⟩)) "C").2.2.2.2
      ⟨true, some (some "R")⟩ "R" rfl rfl rfl
  · exact (get_chapter_url_amended (some (404, ⟨true, some (some "R")⟩)) "C").2.1
      404 ⟨true, some (some "R")⟩ rfl (by decide)
  · exact (get_chapter_url_amended none "C").1 rfl

/-! ## pdf_viewer.create_pdf_from_images -/

/-- PIL color modes the renderer distinguishes (pdf_viewer.py:55). -/
inductive ImgMode
  | RGB
  | RGBA
  | other
deriving DecidableEq

/-- A decoded PIL image: pixel dimensions and color mode. -/
structure PILImage where
  width : Nat
  height : Nat
  mode : ImgMode
deriving DecidableEq

/-- PIL `pil_img.convert('RGB')`: changes the mode, keeps the pixel size. -/
def convert_rgb (im : PILImage) : PILImage := ⟨im.width, im.height, ImgMode.RGB⟩

/-- Mode normalization before embedding (pdf_viewer.py:55-56): only RGBA
is converted. -/
def normalize_mode (im : PILImage) : PILImage :=
  if im.mode = ImgMode.RGBA then convert_rgb im else im

/-- A PDF page: its width and height in points (pdf_viewer.py:66). -/
structure Page where
  width : Nat
  height : Nat
deriving DecidableEq

/-- Embedding one decoded image: the new page takes the (normalized)
image's own dimensions (pdf_viewer.py:63-70). -/
def embed_one (im : PILImage) : Page :=
  ⟨(normalize_mode im).width, (normalize_mode im).height⟩

/-- The per-image loop (pdf_viewer.py:49-79): `none` models an image whose
decode/save/embed raised inside the inner try, which is skipped; each
success appends one page. -/
def embed_pages (decoded : List (Option PILImage)) : List Page :=
  decoded.filterMap (fun o => o.map embed_one)

/-- Observable outcome of `create_pdf_from_images`: the returned
`(pdf_path, temp_dir)` pair (or `none` = the `None, None` failure return),
the pages added to the document, and whether the except-handler removed
the temp directory (pdf_viewer.py:98-99). -/
structure PdfResult where
  ret : Option (String × String)
  pages : List Page
  cleaned : Bool
deriving DecidableEq

/-- Path `os.path.join(temp_dir, title.replace(' ', '_') + ".pdf")`
(pdf_viewer.py:40). -/
def pdf_path (dir title : String) : String :=
  dir ++ "/" ++ title.replace " " "_" ++ ".pdf"

/-- Model of `create_pdf_from_images` (pdf_viewer.py:26-100). `mkdtemp = none`
models `tempfile.mkdtemp` raising before `temp_dir` is bound, so the
handler performs no cleanup. PyMuPDF's `doc.save` refuses to write a
document with zero pages, so a render in which no image embedded raises
at pdf_viewer.py:90 and the handler removes the fresh directory. -/
def create_pdf_from_images (mkdtemp : Option String)
    (decoded : List (Option PILImage)) (title : String) : PdfResult :=
  match mkdtemp with
  | none => ⟨none, [], false⟩
  | some dir =>
      let pages := embed_pages decoded
      if pages.isEmpty then ⟨none, pages, true⟩
      else ⟨some (pdf_path dir title, dir), pages, false⟩

/-- C4: with a temp directory available, the document gets exactly one page
per successfully decoded image, in order (a single decode failure is
skipped, not fatal); every page's width and height equal its own source
image's pixel dimensions, and an RGBA image is converted to RGB before
embedding while other modes are left untouched. -/
theorem create_pdf_pages_spec (dir : String) (decoded : List (Option PILImage))
    (title : String) :
    (create_pdf_from_images (some dir) decoded title).pages =
        (decoded.filterMap id).map embed_one ∧
    (∀ im : PILImage, (embed_one im).width = im.width ∧
        (embed_one im).height = im.height) ∧
    (∀ im : PILImage, im.mode = ImgMode.RGBA →
        (normalize_mode im).mode = ImgMode.RGB) ∧
    (∀ im : PILImage, im.mode ≠ ImgMode.RGBA → normalize_mode im = im) := by
  refine ⟨?_, ?_, ?_, ?_⟩
  · have hpages : embed_pages decoded = (decoded.filterMap id).map embed_one := by
      rw [List.map_filterMap]
      rfl
    have hfield : (create_pdf_from_images (some dir) decoded title).pages =
        embed_pages decoded := by
      simp only [create_pdf_from_images]
      split <;> rfl
    rw [hfield, hpages]
  · intro im
    constructor <;> (unfold embed_one normalize_mode convert_rgb; split <;> rfl)
  · intro im hmode
    simp [normalize_mode, hmode, convert_rgb]
  · intro im hmode
    simp [normalize_mode, hmode]

/-- C4 witness: three decodable images of distinct dimensions (one RGBA)
give exactly three pages, each sized to its own image. -/
theorem create_pdf_pages_spec_witness :
    (create_pdf_from_images (some "d")
        [some ⟨100, 200, ImgMode.RGB⟩, some ⟨300, 400, ImgMode.RGBA⟩,
         some ⟨50, 60, ImgMode.other⟩] "t").pages =
      [⟨100, 200⟩, ⟨300, 400⟩, ⟨50, 60⟩] ∧
    (normalize_mode ⟨300, 400, ImgMode.RGBA⟩).mode = ImgMode.RGB := by
  constructor
  · have h := (create_pdf_pages_spec "d"
        [some ⟨100, 200, ImgMode.RGB⟩, some ⟨300, 400, ImgMode.RGBA⟩,
         some ⟨50, 60, ImgMode.other⟩] "t").1
    rw [h]; rfl
  · exact (create_pdf_pages_spec "d" [] "t").2.2.1 ⟨300, 400, ImgMode.RGBA⟩ rfl

/-- C5: the render returns the failure signal exactly when the temp
directory could not be created or zero images embedded (the modelled
zero-page save failure); in the zero-embeds case the freshly created
directory is removed rather than a zero-page handle returned, and with at
least one embedded page the call succeeds without cleanup. -/
theorem create_pdf_failure_spec (mkdtemp : Option String)
    (decoded : List (Option PILImage)) (title : String) :
    ((create_pdf_from_images mkdtemp decoded title).ret = none ↔
        mkdtemp = none ∨ embed_pages decoded = []) ∧
    (∀ dir, mkdtemp = some dir → embed_pages decoded = [] →
        (create_pdf_from_images mkdtemp decoded title).ret = none ∧
        (create_pdf_from_images mkdtemp decoded title).cleaned = true) ∧
    (∀ dir, mkdtemp = some dir → embed_pages decoded ≠ [] →
        (create_pdf_from_images mkdtemp decoded title).ret =
            some (pdf_path dir title, dir) ∧
        (create_pdf_from_images mkdtemp decoded title).cleaned = false) := by
  refine ⟨?_, ?_, ?_⟩
  · match mkdtemp with
    | none => simp [create_pdf_from_images]
    | some dir =>
        by_cases hemp : embed_pages decoded = []
        · simp [create_pdf_from_images, hemp]
        · simp [create_pdf_from_images, hemp]
  · intro dir hmk hemp
    rw [hmk]
    simp [create_pdf_from_images, hemp]
  · intro dir hmk hne
    rw [hmk]
    simp [create_pdf_from_images, hne]

theorem create_pdf_failure_spec_witness :
    (create_pdf_from_images (some "d") [none, none] "t").ret = none ∧
    (create_pdf_from_images (some "d") [none, none] "t").cleaned = true ∧
    (create_pdf_from_images (some "d") [some ⟨3, 4, ImgMode.RGB⟩] "t").ret =
        some (pdf_path "d" "t", "d") := by
  obtain ⟨h1, h2⟩ := (create_pdf_failure_spec (some "d") [none, none] "t").2.1 "d" rfl rfl
  obtain ⟨h3, _⟩ := (create_pdf_failure_spec (some "d") [some ⟨3, 4, ImgMode.RGB⟩] "t").2.2
      "d" rfl (by decide)
  exact ⟨h1, h2, h3⟩

/-! ## browser.py / viewer.py temp-directory lifecycle -/

/-- Process state: the filesystem restricted to temp directories (the
list of currently existing ones) and the module-level `temp_directories`
registry (browser.py:22). -/
structure TempState where
  fs : List String
  temp_directories : List String
deriving DecidableEq

/-- Model of `shutil.rmtree`: removes the tree, raising when the path does not
exist. -/
def rmtree (fs : List String) (d : String) : Except Unit (List String) :=
  if d ∈ fs then Except.ok (fs.filter (fun x => x ≠ d)) else Except.error ()

/-- One iteration of the reclaim pattern shared by
`cleanup_all_temp_dirs` (browser.py:187-225) and
`_cleanup_when_viewer_closes` (browser.py:143-170): the `os.path.exists`
guard, then `rmtree` inside a try whose except swallows every error. -/
def cleanup_dir (fs : List String) (d : String) : List String :=
  if d ∈ fs then
    match rmtree fs d with
    | Except.ok fs2 => fs2
    | Except.error _ => fs
  else fs

/-- The same iteration with the exception channel exposed: the swallowing
handler means the body always returns normally. -/
def cleanup_dir_run (fs : List String) (d : String) : Except Unit (List String) :=
  if d ∈ fs then
    match rmtree fs d with
    | Except.ok fs2 => Except.ok fs2
    | Except.error _ => Except.ok fs
  else Except.ok fs

/-- Whether the iteration reaches the `rmtree` call at all (the delete is
attempted only behind the existence guard). -/
def cleanup_dir_deletes (fs : List String) (d : String) : Bool :=
  if d ∈ fs then true else false

/-- Model of `cleanup_all_temp_dirs` (browser.py:178-228): early return on an empty
registry, otherwise reclaim every registered directory and clear the
list. -/
def cleanup_all_temp_dirs (s : TempState) : TempState :=
  if s.temp_directories.isEmpty then s
  else ⟨s.temp_directories.foldl cleanup_dir s.fs, []⟩

theorem not_mem_cleanup_dir (fs : List String) (d : String) :
    d ∉ cleanup_dir fs d := by
  by_cases h : d ∈ fs
  · simp [cleanup_dir, rmtree, h, List.mem_filter]
  · simp [cleanup_dir, h]

theorem cleanup_dir_of_not_mem (fs : List String) (d : String) (h : d ∉ fs) :
    cleanup_dir fs d = fs := by
  simp [cleanup_dir, h]

/-- C7: reclaiming is idempotent and total — a second reclaim of the same
directory and a reclaim of an externally deleted directory are no-ops that
return normally (the except-handler swallows every error), the registry
sweep is idempotent, and a directory is deleted at most once (the second
pass never reaches `rmtree`). -/
theorem cleanup_idempotent :
    (∀ (fs : List String) (d : String), d ∉ fs → cleanup_dir fs d = fs) ∧
    (∀ (fs : List String) (d : String),
        cleanup_dir_run fs d = Except.ok (cleanup_dir fs d)) ∧
    (∀ (fs : List String) (d : String),
        cleanup_dir (cleanup_dir fs d) d = cleanup_dir fs d) ∧
    (∀ (fs : List String) (d : String),
        cleanup_dir_deletes (cleanup_dir fs d) d = false) ∧
    (∀ s : TempState,
        cleanup_all_temp_dirs (cleanup_all_temp_dirs s) = cleanup_all_temp_dirs s) := by
  refine ⟨cleanup_dir_of_not_mem, ?_, ?_, ?_, ?_⟩
  · intro fs d
    by_cases h : d ∈ fs <;> simp [cleanup_dir_run, cleanup_dir, rmtree, h]
  · intro fs d
    exact cleanup_dir_of_not_mem _ _ (not_mem_cleanup_dir fs d)
  · intro fs d
    simp [cleanup_dir_deletes, not_mem_cleanup_dir fs d]
  · intro s
    by_cases h : s.temp_directories.isEmpty
    · simp [cleanup_all_temp_dirs, h]
    · simp [cleanup_all_temp_dirs, h]

theorem cleanup_idempotent_witness :
    cleanup_dir ["a"] "b" = ["a"] ∧
    cleanup_dir (cleanup_dir ["a", "b"] "b") "b" = cleanup_dir ["a", "b"] "b" ∧
    cleanup_dir_deletes (cleanup_dir ["a", "b"] "b") "b" = false := by
  refine ⟨cleanup_idempotent.1 ["a"] "b" (by decide), ?_, ?_⟩
  · exact cleanup_idempotent.2.2.1 ["a", "b"] "b"
  · exact cleanup_idempotent.2.2.2.1 ["a", "b"] "b"

/-- Model of `ManhwaViewer.__init__` (viewer.py:55-56): creates the session temp
directory; it is never appended to the browser registry. -/
def viewer_init (s : TempState) (v : String) : TempState :=
  ⟨v :: s.fs, s.temp_directories⟩

/-- Model of `ManhwaViewer.close` (viewer.py:386-392): destroys the window and
rmtrees the session directory, swallowing errors. -/
def viewer_close (s : TempState) (v : String) : TempState :=
  ⟨match rmtree s.fs v with
    | Except.ok fs2 => fs2
    | Except.error _ => s.fs,
   s.temp_directories⟩

/-- C8 counterexample: the claim says process exit also reclaims a viewer
session's temp directory, but the exit path (`cleanup_all_temp_dirs`)
sweeps only the registry, which never contains the viewer's directory: a
process exiting with an unclosed viewer session leaves the directory on
disk. -/
theorem viewer_exit_claim_false :
    ¬ (∀ (s : TempState) (v : String),
        v ∉ (viewer_close (viewer_init s v) v).fs ∧
        v ∉ (cleanup_all_temp_dirs (viewer_init s v)).fs) := by
  intro hclaim
  exact (hclaim ⟨[], []⟩ "v").2 (by decide)

theorem mem_cleanup_dir_of_ne (fs : List String) (d v : String) (hne : v ≠ d)
    (hv : v ∈ fs) : v ∈ cleanup_dir fs d := by
  by_cases h : d ∈ fs
  · simp [cleanup_dir, rmtree, h, List.mem_filter, hv, hne]
  · simpa [cleanup_dir, h]

theorem mem_foldl_cleanup (dirs : List String) : ∀ (fs : List String) (v : String),
    v ∉ dirs → v ∈ fs → v ∈ dirs.foldl cleanup_dir fs := by
  induction dirs with
  | nil => intro fs v _ hv; exact hv
  | cons d rest ih =>
      intro fs v hnd hv
      have hne : v ≠ d := fun h => hnd (h ▸ List.mem_cons_self d rest)
      have hnr : v ∉ rest := fun h => hnd (List.mem_cons_of_mem d h)
      exact ih (cleanup_dir fs d) v hnr (mem_cleanup_dir_of_ne fs d v hne hv)

/-- C8 amended: termination by explicit user close does reclaim the
session's temporary directory; but the viewer never registers that
directory, so the process-exit sweep leaves it in place whenever it was
not closed explicitly. -/
theorem viewer_cleanup_amended (s : TempState) (v : String) :
    v ∉ (viewer_close (viewer_init s v) v).fs ∧
    (viewer_init s v).temp_directories = s.temp_directories ∧
    (v ∉ s.temp_directories →
        v ∈ (cleanup_all_temp_dirs (viewer_init s v)).fs) := by
  refine ⟨?_, rfl, ?_⟩
  · have hv : v ∈ (viewer_init s v).fs := List.mem_cons_self _ _
    simp only [viewer_close, rmtree, if_pos hv]
    simp [List.mem_filter]
  · intro hreg
    by_cases h : s.temp_directories.isEmpty
    · simp [cleanup_all_temp_dirs, viewer_init, h]
    · simp only [cleanup_all_temp_dirs, viewer_init, h, Bool.false_eq_true, if_false]
      exact mem_foldl_cleanup s.temp_directories (v :: s.fs) v hreg
        (List.mem_cons_self _ _)

theorem viewer_cleanup_amended_witness :
    "v" ∉ (viewer_close (viewer_init ⟨["w"], ["w"]⟩ "v") "v").fs ∧
    "v" ∈ (cleanup_all_temp_dirs (viewer_init ⟨["w"], ["w"]⟩ "v")).fs := by
  have h := viewer_cleanup_amended ⟨["w"], ["w"]⟩ "v"
  exact ⟨h.1, h.2.2 (by decide)⟩

/-! ## viewer.py zoom state

The zoom constants (viewer.py:50-53) and step operations
(viewer.py:312-324), modelled over the rationals. -/

def zoom_step : ℚ := 1/10

def min_zoom : ℚ := 1/2

def max_zoom : ℚ := 2

def initial_zoom : ℚ := 1

/-- Model of `ManhwaViewer.zoom_in` (viewer.py:312-317): guarded increment then a
clamp to the maximum. -/
def zoom_in (z : ℚ) : ℚ :=
  if z < max_zoom then min (z + zoom_step) max_zoom else z

/-- Model of `ManhwaViewer.zoom_out` (viewer.py:319-324): guarded decrement then a
clamp to the minimum. -/
def zoom_out (z : ℚ) : ℚ :=
  if min_zoom < z then max (z - zoom_step) min_zoom else z

/-- A user zoom action. -/
inductive ZoomOp
  | zin
  | zout
deriving DecidableEq

def apply_zoom (z : ℚ) : ZoomOp → ℚ
  | ZoomOp.zin => zoom_in z
  | ZoomOp.zout => zoom_out z

/-- The zoom level after a sequence of zoom actions from a fresh viewer. -/
def run_zoom (ops : List ZoomOp) : ℚ := ops.foldl apply_zoom initial_zoom

/-- Reachable zoom levels: an integer number of steps from 1.0, within
the bounds. -/
def ZoomP (z : ℚ) : Prop :=
  ∃ k : ℤ, (-5 : ℤ) ≤ k ∧ k ≤ 10 ∧ z = 1 + (k : ℚ) / 10

theorem zoom_in_P {z : ℚ} (h : ZoomP z) :
    ZoomP (zoom_in z) ∧ (z < max_zoom → zoom_in z = z + zoom_step) ∧
    (¬ z < max_zoom → zoom_in z = z) := by
  obtain ⟨k, hk1, hk2, rfl⟩ := h
  by_cases hlt : (1 + (k : ℚ) / 10) < max_zoom
  · have hk10 : k < 10 := by
      rw [max_zoom] at hlt
      by_contra hge
      push_neg at hge
      have h10 : (10 : ℚ) ≤ (k : ℚ) := by exact_mod_cast hge
      linarith
    have hle : 1 + (k : ℚ) / 10 + zoom_step ≤ max_zoom := by
      rw [zoom_step, max_zoom]
      have hk9 : k ≤ 9 := by omega
      have h9 : (k : ℚ) ≤ 9 := by exact_mod_cast hk9
      linarith
    have heq : zoom_in (1 + (k : ℚ) / 10) = 1 + (k : ℚ) / 10 + zoom_step := by
      rw [zoom_in, if_pos hlt, min_eq_left hle]
    refine ⟨⟨k + 1, by omega, by omega, ?_⟩, fun _ => heq, fun hc => absurd hlt hc⟩
    rw [heq, zoom_step]
    push_cast
    ring
  · have heq : zoom_in (1 + (k : ℚ) / 10) = 1 + (k : ℚ) / 10 := by
      rw [zoom_in, if_neg hlt]
    exact ⟨⟨k, hk1, hk2, heq⟩, fun hc => absurd hc hlt, fun _ => heq⟩

theorem zoom_out_P {z : ℚ} (h : ZoomP z) :
    ZoomP (zoom_out z) ∧ (min_zoom < z → zoom_out z = z - zoom_step) ∧
    (¬ min_zoom < z → zoom_out z = z) := by
  obtain ⟨k, hk1, hk2, rfl⟩ := h
  by_cases hlt : min_zoom < (1 + (k : ℚ) / 10)
  · have hk5 : -5 < k := by
      rw [min_zoom] at hlt
      by_contra hge
      push_neg at hge
      have h5 : (k : ℚ) ≤ -5 := by exact_mod_cast hge
      linarith
    have hle : min_zoom ≤ 1 + (k : ℚ) / 10 - zoom_step := by
      rw [zoom_step, min_zoom]
      have h4 : (-4 : ℚ) ≤ (k : ℚ) := by exact_mod_cast hk5
      linarith
    have heq : zoom_out (1 + (k : ℚ) / 10) = 1 + (k : ℚ) / 10 - zoom_step := by
      rw [zoom_out, if_pos hlt, max_eq_left hle]
    refine ⟨⟨k - 1, by omega, by omega, ?_⟩, fun _ => heq, fun hc => absurd hlt hc⟩
    rw [heq, zoom_step]
    push_cast
    ring
  · have heq : zoom_out (1 + (k : ℚ) / 10) = 1 + (k : ℚ) / 10 := by
      rw [zoom_out, if_neg hlt]
    exact ⟨⟨k, hk1, hk2, heq⟩, fun hc => absurd hc hlt, fun _ => heq⟩

theorem run_zoom_P (ops : List ZoomOp) : ZoomP (run_zoom ops) := by
  have main : ∀ (l : List ZoomOp) (z : ℚ), ZoomP z → ZoomP (l.foldl apply_zoom z) := by
    intro l
    induction l with
    | nil => intro z hz; exact hz
    | cons op rest ih =>
        intro z hz
        cases op with
        | zin => exact ih (zoom_in z) (zoom_in_P hz).1
        | zout => exact ih (zoom_out z) (zoom_out_P hz).1
  exact main ops initial_zoom ⟨0, by omega, by omega, by norm_num [initial_zoom]⟩

/-- C9: from the initial level 1.0, any sequence of zoom-in / zoom-out
actions keeps the zoom level within [0.5, 2.0]; away from the bounds each
action changes the level by exactly one 0.1 step, and at a bound the
action leaves it unchanged. -/
theorem zoom_invariant (ops : List ZoomOp) :
    run_zoom [] = 1 ∧
    min_zoom ≤ run_zoom ops ∧ run_zoom ops ≤ max_zoom ∧
    (run_zoom ops < max_zoom →
        zoom_in (run_zoom ops) = run_zoom ops + zoom_step) ∧
    (¬ run_zoom ops < max_zoom → zoom_in (run_zoom ops) = run_zoom ops) ∧
    (min_zoom < run_zoom ops →
        zoom_out (run_zoom ops) = run_zoom ops - zoom_step) ∧
    (¬ min_zoom < run_zoom ops → zoom_out (run_zoom ops) = run_zoom ops) := by
  have hP := run_zoom_P ops
  obtain ⟨k, hk1, hk2, hz⟩ := hP
  have hin := zoom_in_P (⟨k, hk1, hk2, hz⟩ : ZoomP (run_zoom ops))
  have hout := zoom_out_P (⟨k, hk1, hk2, hz⟩ : ZoomP (run_zoom ops))
  refine ⟨rfl, ?_, ?_, hin.2.1, hin.2.2, hout.2.1, hout.2.2⟩
  · rw [hz, min_zoom]
    have h5 : (-5 : ℚ) ≤ (k : ℚ) := by exact_mod_cast hk1
    linarith
  · rw [hz, max_zoom]
    have h10 : (k : ℚ) ≤ 10 := by exact_mod_cast hk2
    linarith

theorem zoom_invariant_witness :
    run_zoom [ZoomOp.zin] < max_zoom ∧
    zoom_in (run_zoom [ZoomOp.zin]) = run_zoom [ZoomOp.zin] + zoom_step ∧
    min_zoom ≤ run_zoom [ZoomOp.zout, ZoomOp.zout] := by
  have h1 : run_zoom [ZoomOp.zin] < max_zoom := by
    norm_num [run_zoom, apply_zoom, zoom_in, initial_zoom, zoom_step, max_zoom]
  exact ⟨h1, (zoom_invariant [ZoomOp.zin]).2.2.2.1 h1,
    (zoom_invariant [ZoomOp.zout, ZoomOp.zout]).2.1⟩

/-! ## scraper.search_manhwa -/

/-- A `.page-item-detail.manga` result item: the optional title link
(`.post-title h3 a`), the optional `.img-responsive` element with its two
source attributes (`none` when the attribute is absent, as `get` without a
default yields None), and the optional rating / views texts. -/
structure MangaItem where
  title_el : Option Link
  img : Option (Option String × Option String)
  rating : Option String
  views : Option String
deriving DecidableEq

/-- A search result record (scraper.py:105-111 and the alternate-stage
variants). `views` is populated only by the primary-container stage. -/
structure SearchResult where
  title : String
  url : Option String
  image_url : Option String
  rating : String
  views : Option String
deriving DecidableEq

/-- Python's `a or b` on optional strings: None and the empty string are
falsy. -/
def pyOrOpt (a b : Option String) : Option String :=
  match a with
  | some s => if s = "" then b else some s
  | none => b

/-- Item parsing on the primary-container path (scraper.py:84-111): skips
items without a title link; `image_url = img_el.get('src') or
img_el.get('data-src') if img_el else None`; views captured. -/
def parse_item_full (it : MangaItem) : Option SearchResult :=
  it.title_el.map fun t =>
    ⟨t.text.trim, t.href, it.img.bind (fun p => pyOrOpt p.1 p.2),
     (it.rating.map String.trim).getD "N/A", it.views.map String.trim⟩

/-- Item parsing on the whole-document, alternate-URL and AJAX-API paths
(scraper.py:118-140, 157-179, 210-231): only `src` is consulted for the
image and no views field is captured. -/
def parse_item_alt (it : MangaItem) : Option SearchResult :=
  it.title_el.map fun t =>
    ⟨t.text.trim, t.href, it.img.bind (fun p => p.1),
     (it.rating.map String.trim).getD "N/A", none⟩

/-- Title-dedup append (scraper.py:104, 134, 173, 217): a record is added
only when no accumulated record carries the same title. -/
def add_unique (results : List SearchResult) (r : SearchResult) :
    List SearchResult :=
  if results.any (fun x => x.title = r.title) then results else results ++ [r]

/-- One extraction stage: fold the stage's items into the accumulator. -/
def add_stage (parse : MangaItem → Option SearchResult)
    (results : List SearchResult) (items : List MangaItem) : List SearchResult :=
  items.foldl (fun acc it =>
    match parse it with
    | some r => add_unique acc r
    | none => acc) results

/-- The parsed primary search page: the `.page-listing-item` container's
items when the container exists, and the whole-document items used
otherwise (scraper.py:73-116). -/
structure SearchPage where
  container : Option (List MangaItem)
  whole_doc_items : List MangaItem

/-- Network outcomes of the three requests `search_manhwa` can make:
`none` = the request raised; otherwise status code and parsed items. -/
structure SearchNet where
  page : Option (Nat × SearchPage)
  alt : Option (Nat × List MangaItem)
  api : Option (Nat × List MangaItem)

/-- The accumulation phase of `search_manhwa` (scraper.py:39-234): primary
container, whole-document fallback, alternate-URL fallback (only after a
200 primary response with no results), then the AJAX API (only when still
empty); every stage appends through the title dedup. -/
def search_accumulate (net : SearchNet) : List SearchResult :=
  let results :=
    match net.page with
    | none => []
    | some (status, pg) =>
        if status = 200 then
          let r1 :=
            match pg.container with
            | some items => add_stage parse_item_full [] items
            | none => add_stage parse_item_alt [] pg.whole_doc_items
          if r1.isEmpty then
            match net.alt with
            | none => r1
            | some (st2, items2) =>
                if st2 = 200 then add_stage parse_item_alt r1 items2 else r1
          else r1
        else []
  if results.isEmpty then
    match net.api with
    | none => results
    | some (st3, items3) =>
        if st3 = 200 then add_stage parse_item_alt results items3 else results
  else results

/-- Model of `search_manhwa` (scraper.py:236-241): the accumulated results,
truncated to the first `limit` (empty when nothing accumulated). -/
def search_manhwa (net : SearchNet) (limit : Nat) : List SearchResult :=
  let results := search_accumulate net
  if results.isEmpty then [] else results.take limit

theorem add_unique_nodup (results : List SearchResult) (r : SearchResult)
    (h : (results.map SearchResult.title).Nodup) :
    ((add_unique results r).map SearchResult.title).Nodup := by
  by_cases hmem : results.any (fun x => x.title = r.title)
  · simpa [add_unique, hmem]
  · have hnot : r.title ∉ results.map SearchResult.title := by
      intro hin
      obtain ⟨x, hx, hxt⟩ := List.mem_map.mp hin
      exact hmem (List.any_eq_true.mpr ⟨x, hx, by simp [hxt]⟩)
    simp only [add_unique, hmem, Bool.false_eq_true, if_false, List.map_append,
      List.map_cons, List.map_nil]
    rw [List.nodup_append]
    exact ⟨h, List.nodup_singleton _, by simpa using hnot⟩

theorem add_stage_nodup (parse : MangaItem → Option SearchResult)
    (items : List MangaItem) : ∀ results : List SearchResult,
    (results.map SearchResult.title).Nodup →
    ((add_stage parse results items).map SearchResult.title).Nodup := by
  induction items with
  | nil => intro results h; exact h
  | cons it rest ih =>
      intro results h
      simp only [add_stage, List.foldl_cons]
      match parse it with
      | some r => exact ih (add_unique results r) (add_unique_nodup results r h)
      | none => exact ih results h

theorem search_accumulate_nodup (net : SearchNet) :
    ((search_accumulate net).map SearchResult.title).Nodup := by
  unfold search_accumulate
  have hnil : (([] : List SearchResult).map SearchResult.title).Nodup := by simp
  set results :=
    (match net.page with
    | none => []
    | some (status, pg) =>
        if status = 200 then
          let r1 :=
            match pg.container with
            | some items => add_stage parse_item_full [] items
            | none => add_stage parse_item_alt [] pg.whole_doc_items
          if r1.isEmpty then
            match net.alt with
            | none => r1
            | some (st2, items2) =>
                if st2 = 200 then add_stage parse_item_alt r1 items2 else r1
          else r1
        else []) with hres
  have hbase : (results.map SearchResult.title).Nodup := by
    rw [hres]
    match net.page with
    | none => exact hnil
    | some (status, pg) =>
        by_cases hs : status = 200
        · simp only [hs, if_true]
          have h1 : ((match pg.container with
              | some items => add_stage parse_item_full [] items
              | none => add_stage parse_item_alt [] pg.whole_doc_items).map
                SearchResult.title).Nodup := by
            match pg.container with
            | some items => exact add_stage_nodup parse_item_full items [] hnil
            | none => exact add_stage_nodup parse_item_alt pg.whole_doc_items [] hnil
          by_cases hemp : (match pg.container with
              | some items => add_stage parse_item_full [] items
              | none => add_stage parse_item_alt [] pg.whole_doc_items).isEmpty
          · simp only [hemp, if_true]
            match net.alt with
            | none => exact h1
            | some (st2, items2) =>
                by_cases hs2 : st2 = 200
                · simp only [hs2, if_true]
                  exact add_stage_nodup parse_item_alt items2 _ h1
                · simpa [hs2] using h1
          · simpa [hemp] using h1
        · simp [hs]
  by_cases hemp : results.isEmpty
  · simp only [hemp, if_true]
    match net.api with
    | none => exact hbase
    | some (st3, items3) =>
        by_cases hs3 : st3 = 200
        · simp only [hs3, if_true]
          exact add_stage_nodup parse_item_alt items3 results hbase
        · simpa [hs3] using hbase
  · simpa [hemp] using hbase

/-- C6: on every markup variant and fallback stage, the search result list
never contains two records with the same title — a record is appended only
when its title is not already accumulated. -/
theorem search_manhwa_no_duplicate_titles (net : SearchNet) (limit : Nat) :
    ((search_manhwa net limit).map SearchResult.title).Nodup := by
  have hacc := search_accumulate_nodup net
  unfold search_manhwa
  by_cases hemp : (search_accumulate net).isEmpty
  · simp [hemp]
  · simp only [hemp, Bool.false_eq_true, if_false]
    rw [List.map_take]
    exact List.Nodup.sublist (List.take_sublist _ _) hacc

/-- C10: the search returns at most `limit` results, namely the first
`limit` accumulated records in accumulation order. -/
theorem search_manhwa_limit (net : SearchNet) (limit : Nat) :
    search_manhwa net limit = (search_accumulate net).take limit ∧
    (search_manhwa net limit).length ≤ limit := by
  have heq : search_manhwa net limit = (search_accumulate net).take limit := by
    unfold search_manhwa
    by_cases hemp : (search_accumulate net).isEmpty
    · rw [List.isEmpty_iff] at hemp
      simp [hemp]
    · simp [hemp]
  refine ⟨heq, ?_⟩
  rw [heq, List.length_take]
  exact min_le_left _ _

end ManhwaCli
